import Mathlib

/-!
# Verification of the jenkins-top-submitters validator and renderer

Shallow embedding of the table validator (`checkFile` in the check command)
and the rendering helpers (`get_columnsWidth`, `writeDataAsMarkdown`,
`writeCSVtoFile`) of the repository, together with proofs of the behavioural
claims about them.

The embedding works at the level of parsed CSV records: a table is a
`List (List String)` of rows of string cells, exactly what Go's
`encoding/csv` reader hands to the validator.  Machine integers are modelled
as `Int` with the explicit signed 64-bit range check that `strconv.Atoi`
performs.
-/

/-- Models Go `strconv.Atoi` on a 64-bit platform: an optional leading `+` or
`-` followed by at least one ASCII decimal digit, whose signed value must fit
in the signed 64-bit integer range (`ParseInt` with `bitSize` 0 reports
`ErrRange` otherwise).  Returns `none` exactly when Go returns a non-nil
error. -/
def goAtoi (s : String) : Option Int :=
  match s.data with
  | [] => none
  | c :: rest =>
    let sign : Bool × List Char :=
      if c = '+' then (false, rest)
      else if c = '-' then (true, rest)
      else (false, c :: rest)
    match sign with
    | (neg, digits) =>
      if digits.isEmpty then none
      else if digits.all Char.isDigit then
        let n : Nat := digits.foldl (fun a d => a * 10 + (d.toNat - 48)) 0
        let v : Int := if neg then -(n : Int) else (n : Int)
        if -(2 ^ 63) ≤ v ∧ v ≤ 2 ^ 63 - 1 then some v else none
      else none

/-- Models `month_regexp.MatchString` at one position: does the character list
start with a match of the pattern `20[0-9]{2}-[0-9]{2}`? -/
def monthMatchAt : List Char → Bool
  | '2' :: '0' :: y1 :: y2 :: '-' :: m1 :: m2 :: _ =>
      y1.isDigit && y2.isDigit && m1.isDigit && m2.isDigit
  | _ => false

/-- Scans every suffix for a match of `20[0-9]{2}-[0-9]{2}`. -/
def monthSearch : List Char → Bool
  | [] => false
  | c :: rest => monthMatchAt (c :: rest) || monthSearch rest

/-- Models `month_regexp.MatchString s` for the unanchored pattern
`20[0-9]{2}-[0-9]{2}` compiled in `checkFile`: true iff some substring of `s`
matches. -/
def containsMonth (s : String) : Bool :=
  monthSearch s.data

/-- The character class `[a-zA-Z0-9\-]` of the submitter-name regular
expression `name_exp` in `checkFile`. -/
def isNameChar (c : Char) : Bool :=
  c.isAlpha || c.isDigit || c = '-'

/-- Models the submitter check in `checkFile`:
`len(column) < 40 && len(column) > 0 && name_exp.MatchString(column)` where
`name_exp` is the anchored `^[a-zA-Z0-9\-]+$` (a full match: non-empty and
every character in the class). -/
def checkIdent (s : String) : Bool :=
  Nat.blt s.length 40 && Nat.blt 0 s.length &&
    (!s.data.isEmpty && s.data.all isNameChar)

/-- Field checks that `checkFile` runs on one data record: cell 0 must pass
`checkIdent`, every later cell must pass `strconv.Atoi`. -/
def checkRow : List String → Bool
  | [] => true
  | c :: cs => checkIdent c && cs.all (fun s => (goAtoi s).isSome)

/-- The distinct failure exits of `checkFile`, one per `return false` site
(each prints its own diagnostic message in the source). -/
inductive CheckResult where
  /-- all checks passed, `checkFile` returns `true` -/
  | ok
  /-- `r.Read()` failed (empty input once blank lines are skipped) -/
  | readError
  /-- the header record was empty; unreachable through `encoding/csv`, which
  never yields a zero-field record (Go would panic on `firstLine[0]`) -/
  | emptyHeaderRecord
  /-- "Not the expected first column name (should be empty)" -/
  | badFirstCell
  /-- "Column header ... is not of the expected format (YYYY-MM)" -/
  | badMonth
  /-- `r.ReadAll()` returned `ErrFieldCount`: some record's field count
  differs from the header's (`FieldsPerRecord` was fixed by the first
  `r.Read()`) -/
  | columnCountMismatch
  /-- a submitter or count cell failed its field check -/
  | badRecord
deriving DecidableEq

/-- Models `checkFile` on the sequence of CSV records of the input file,
recording which exit is taken.  Mirrors the source order: read the header,
check its first cell, check every later header cell against the month
pattern, `ReadAll` the remaining records (which fails on any field-count
mismatch), then run the field checks on every record except index 0 of
`records` (the loop skips `i == 0` even though the header was already
consumed by `r.Read()`, so the first data record is never field-checked). -/
def checkFileR : List (List String) → CheckResult
  | [] => .readError
  | [] :: _ => .emptyHeaderRecord
  | (c0 :: hrest) :: rest =>
    if c0 ≠ "" then .badFirstCell
    else if hrest.all containsMonth = false then .badMonth
    else if rest.any (fun r => r.length ≠ (c0 :: hrest).length) = true then
      .columnCountMismatch
    else if (rest.drop 1).all checkRow = false then .badRecord
    else .ok

/-- The boolean verdict of `checkFile`: `true` iff no check failed. -/
def checkFile (t : List (List String)) : Bool :=
  checkFileR t = .ok

/-- Modelled from the spec: the strict year-month pattern `20YY-MM` with
`YY` in `[10,29]` and `MM` in `[01,12]`, matched against the whole cell.
This is the pattern the specification describes for header cells; the code's
`month_regexp` is compared against it. -/
def strictYearMonth (s : String) : Bool :=
  match s.data with
  | ['2', '0', y1, y2, '-', m1, m2] =>
      (y1 = '1' || y1 = '2') && y2.isDigit &&
        ((m1 = '0' && m2.isDigit && m2 ≠ '0') ||
         (m1 = '1' && (m2 = '0' || m2 = '1' || m2 = '2')))
  | _ => false

/-- The error value built by `get_columnsWidth`:
`fmt.Errorf("line #%d has %d column while expecting %d \n", lineNbr+1,
nbr_columns, announced_nbr_columns)`.  The three numbers of the message are
kept; the accompanying `width_slice` return value is `nil`, so the error
constructor carries no vector. -/
structure WidthError where
  /-- the 1-based number of the offending line (`lineNbr + 1`) -/
  line : Nat
  /-- the cell count found on that line -/
  found : Nat
  /-- the cell count of the first row (`announced_nbr_columns`) -/
  expected : Nat
deriving DecidableEq

/-- Models Go's built-in `len` on a string: the UTF-8 byte count of its
contents (not the rune count). -/
def goLen (s : String) : Nat :=
  s.utf8ByteSize

/-- One pass of the inner loop of `get_columnsWidth`: raise each width
counter to `len(data_cell)`, the byte length of the corresponding cell. -/
def updateWidths (ws : List Nat) (row : List String) : List Nat :=
  List.zipWith (fun w c => Nat.max w (goLen c)) ws row

/-- The line loop of `get_columnsWidth`, carrying the running `lineNbr` and
the width accumulator.  A line whose cell count differs from
`announced_nbr_columns` aborts with the error; otherwise the widths are
updated and the walk continues. -/
def gcwLoop (announced : Nat) : Nat → List Nat → List (List String) →
    Except WidthError (List Nat)
  | _, ws, [] => .ok ws
  | lineNbr, ws, row :: rest =>
    if row.length ≠ announced then .error ⟨lineNbr + 1, row.length, announced⟩
    else gcwLoop announced (lineNbr + 1) (updateWidths ws row) rest

/-- Models `get_columnsWidth`: reads `len(output_data_slice[0])`
unconditionally — on a zero-row table that access is out of bounds (a Go
index-out-of-range panic), modelled by `none` — then walks every line
starting from a zero width vector of that length. -/
def get_columnsWidth (t : List (List String)) :
    Option (Except WidthError (List Nat)) :=
  match t with
  | [] => none
  | r0 :: _ => some (gcwLoop r0.length 0 (List.replicate r0.length 0) t)

/-- The column maximum the spec describes: the largest cell length (in
bytes, as Go's `len` measures cells) in column `k` over all rows, a missing
or empty cell counting as length 0. -/
def colMax (t : List (List String)) (k : Nat) : Nat :=
  (t.map (fun r => goLen (r.getD k ""))).foldr Nat.max 0

/-- Models `fmt.Sprintf(" %*s", exact_width, data)` without the leading
space: a non-negative width right-aligns (pads on the left) to at least
`exact_width` runes, a negative width left-aligns (pads on the right) to at
least `|exact_width|` runes. -/
def sprintfPad (exactWidth : Int) (s : String) : String :=
  if 0 ≤ exactWidth then
    String.mk (List.replicate (exactWidth.toNat - s.length) ' ' ++ s.data)
  else
    String.mk (s.data ++ List.replicate (exactWidth.natAbs - s.length) ' ')

/-- The per-cell alignment choice of `writeDataAsMarkdown`: `exact_width` is
`width_slice[columnNbr]` when `strconv.Atoi` succeeds on the cell (right
align) and its negation otherwise (left align). -/
def exactWidth (w : Nat) (s : String) : Int :=
  if (goAtoi s).isSome then (w : Int) else 0 - (w : Int)

/-- A formatted cell of `writeDataAsMarkdown`. -/
def formatCell (w : Nat) (s : String) : String :=
  sprintfPad (exactWidth w s) s

/-- The underline fragment `writeDataAsMarkdown` builds for one column while
processing the row with `lineNumber == 1`: a plain dash run of the column
width when `exact_width <= 0`, otherwise one dash fewer followed by `:`. -/
def underlineCell (w : Nat) (s : String) : String :=
  if exactWidth w s ≤ 0 then String.mk (List.replicate w '-')
  else String.mk (List.replicate (w - 1) '-') ++ ":"

/-- The `" %s |"` fragments of one table row, walking the cells with their
column number (`width_slice[columnNbr]` supplies the width). -/
def rowCells (ws : List Nat) (columnNbr : Nat) : List String → List String
  | [] => []
  | s :: rest =>
      (" " ++ formatCell (ws.getD columnNbr 0) s ++ " |") ::
        rowCells ws (columnNbr + 1) rest

/-- One emitted table row: `writeBuffer` starts at `"|"` and each cell
appends `" %s |"`. -/
def rowLine (ws : List Nat) (row : List String) : String :=
  "|" ++ String.join (rowCells ws 0 row)

/-- The underline fragments of the row with `lineNumber == 1`. -/
def underlineCells (ws : List Nat) (columnNbr : Nat) : List String → List String
  | [] => []
  | s :: rest =>
      (" " ++ underlineCell (ws.getD columnNbr 0) s ++ " |") ::
        underlineCells ws (columnNbr + 1) rest

/-- The emitted underline row, built like `underlineBuffer`. -/
def underlineLine (ws : List Nat) (row : List String) : String :=
  "|" ++ String.join (underlineCells ws 0 row)

/-- The line loop of `writeDataAsMarkdown` from a given `lineNumber`: the row
with `lineNumber == 1` first emits the underline row built from its own
cells, then its data row. -/
def markdownLinesFrom (ws : List Nat) (lineNumber : Nat) :
    List (List String) → List String
  | [] => []
  | row :: rest =>
      (if lineNumber = 1 then [underlineLine ws row, rowLine ws row]
       else [rowLine ws row]) ++ markdownLinesFrom ws (lineNumber + 1) rest

/-- All table lines emitted by `writeDataAsMarkdown`. -/
def markdownLines (ws : List Nat) (t : List (List String)) : List String :=
  markdownLinesFrom ws 0 t

/-- Models `writeDataAsMarkdown` as the list of lines written to the output
file: `none` models the `log.Fatal` abort when `get_columnsWidth` fails (and
the out-of-bounds panic on an empty table); a non-empty introduction text is
written first, then the table lines. -/
def writeDataAsMarkdown (t : List (List String)) (intro : String) :
    Option (List String) :=
  match get_columnsWidth t with
  | none => none
  | some (.error _) => none
  | some (.ok ws) =>
      some ((if 0 < intro.length then [intro] else []) ++ markdownLines ws t)

/-- Models `unicode.IsSpace` on the characters relevant to CSV fields
(the Latin-1 white space characters; the higher Unicode space code points
behave like ordinary characters for the round-trip argument). -/
def goIsSpace (c : Char) : Bool :=
  c = ' ' || c = '\t' || c = '\n' || c = '\x0b' || c = '\x0c' || c = '\r' ||
    c = '\x85' || c = '\xA0'

/-- Models `fieldNeedsQuotes` of `encoding/csv.Writer` with the default comma
separator: quote a non-empty field that is `\.`, contains the separator, a
quote, `\r` or `\n`, or starts with white space. -/
def fieldNeedsQuotes (f : String) : Bool :=
  if f = "" then false
  else if f = "\\." then true
  else if f.data.any (fun c => c = ',' || c = '"' || c = '\r' || c = '\n') then true
  else goIsSpace (f.data.headD 'a')

/-- Quote-escaping inside a quoted CSV field with `UseCRLF` false: each `"`
is doubled, every other character (including `\r` and `\n`) is copied. -/
def escapeQuoted : List Char → List Char
  | [] => []
  | c :: rest =>
      if c = '"' then '"' :: '"' :: escapeQuoted rest
      else c :: escapeQuoted rest

/-- One field as written by `csv.Writer.Write`. -/
def writeFieldChars (f : String) : List Char :=
  if fieldNeedsQuotes f then '"' :: (escapeQuoted f.data ++ ['"'])
  else f.data

/-- One record as written by `csv.Writer.Write` with `UseCRLF` false: fields
joined by commas and terminated by `\n`. -/
def writeRecordChars : List String → List Char
  | [] => ['\n']
  | [f] => writeFieldChars f ++ ['\n']
  | f :: fs => writeFieldChars f ++ ',' :: writeRecordChars fs

/-- The character stream `csv.Writer.WriteAll` produces for a record slice. -/
def csvWriteChars : List (List String) → List Char
  | [] => []
  | r :: t => writeRecordChars r ++ csvWriteChars t

/-- Models `writeCSVtoFile`: the full text written to the output file. -/
def csvWrite (t : List (List String)) : String :=
  String.mk (csvWriteChars t)

/-- The mode of the `encoding/csv` reader scan between two characters. -/
inductive ScanMode where
  /-- at the start of a record (a bare `\n` here is a skipped blank line) -/
  | recordStart
  /-- at the start of a field after a separator -/
  | fieldStart
  /-- inside an unquoted field -/
  | unquoted
  /-- inside a quoted field -/
  | inQuotes
  /-- just after a quote inside a quoted field -/
  | afterQuote
deriving DecidableEq

/-- Models the record scan of `encoding/csv.Reader` with the default options
(comma separator, `LazyQuotes` false, `TrimLeadingSpace` false) on input
without `\r`: blank lines are skipped, `""` inside a quoted field is an
escaped quote, a quote inside an unquoted field or a stray character after a
closing quote or an unterminated quote is a parse error (`none`). -/
def csvScan (recs : List (List String)) (fields : List String)
    (cur : List Char) (m : ScanMode) : List Char → Option (List (List String))
  | [] =>
    match m with
    | .recordStart => some recs
    | .fieldStart => some (recs ++ [fields ++ [""]])
    | .unquoted => some (recs ++ [fields ++ [String.mk cur.reverse]])
    | .inQuotes => none
    | .afterQuote => some (recs ++ [fields ++ [String.mk cur.reverse]])
  | ch :: rest =>
    match m with
    | .recordStart =>
        if ch = '\n' then csvScan recs [] [] .recordStart rest
        else if ch = '"' then csvScan recs [] [] .inQuotes rest
        else if ch = ',' then csvScan recs [""] [] .fieldStart rest
        else csvScan recs [] [ch] .unquoted rest
    | .fieldStart =>
        if ch = '\n' then csvScan (recs ++ [fields ++ [""]]) [] [] .recordStart rest
        else if ch = '"' then csvScan recs fields [] .inQuotes rest
        else if ch = ',' then csvScan recs (fields ++ [""]) [] .fieldStart rest
        else csvScan recs fields [ch] .unquoted rest
    | .unquoted =>
        if ch = ',' then
          csvScan recs (fields ++ [String.mk cur.reverse]) [] .fieldStart rest
        else if ch = '\n' then
          csvScan (recs ++ [fields ++ [String.mk cur.reverse]]) [] [] .recordStart rest
        else if ch = '"' then none
        else csvScan recs fields (ch :: cur) .unquoted rest
    | .inQuotes =>
        if ch = '"' then csvScan recs fields cur .afterQuote rest
        else csvScan recs fields (ch :: cur) .inQuotes rest
    | .afterQuote =>
        if ch = '"' then csvScan recs fields ('"' :: cur) .inQuotes rest
        else if ch = ',' then
          csvScan recs (fields ++ [String.mk cur.reverse]) [] .fieldStart rest
        else if ch = '\n' then
          csvScan (recs ++ [fields ++ [String.mk cur.reverse]]) [] [] .recordStart rest
        else none

/-- The record list the `encoding/csv` reader extracts from a text, or `none`
on a parse error. -/
def csvParse (s : String) : Option (List (List String)) :=
  csvScan [] [] [] .recordStart s.data

/-- The verdict of `checkFile` run on a file holding the given text: a read
or parse error at any stage makes `checkFile` return `false`, otherwise the
verdict on the parsed records applies (`checkFile` enforces the field-count
uniformity itself through `ReadAll`). -/
def checkFileOnText (s : String) : Bool :=
  match csvParse s with
  | none => false
  | some recs => checkFile recs

/-- The four-row example table of the specification's column-width property. -/
def specWidthTable : List (List String) :=
  [["aaa aaa", "12", "ccccccc"],
   ["aaa aaa aa", "124", "cccccccccc"],
   ["aaa", "12", "cccccccccc"],
   ["aaa", "1024", "cccccccccccc"]]

example : goAtoi "123" = some 123 := by decide
example : goAtoi "-042" = some (-42) := by decide
example : goAtoi "+7" = some 7 := by decide
example : goAtoi "" = none := by decide
example : goAtoi "7a" = none := by decide
example : goAtoi "99999999999999999999" = none := by decide
example : goAtoi "9223372036854775807" = some 9223372036854775807 := by decide
example : goAtoi "9223372036854775808" = none := by decide
example : containsMonth "2023-08" = true := by decide
example : containsMonth "x2099-99y" = true := by decide
example : containsMonth "2023-8" = false := by decide
example : strictYearMonth "2023-08" = true := by decide
example : strictYearMonth "2015-13" = false := by decide
example : strictYearMonth "2099-99" = false := by decide
example : checkIdent "daniel-beck" = true := by decide
example : checkIdent "-a--b-" = true := by decide
example : checkIdent "" = false := by decide
example : checkIdent "a b" = false := by decide
example : checkFile [["", "2023-01"], ["alice", "12"], ["bob", "7"]] = true := by decide
example : checkFile [["", "2023-01"], ["alice", "xx"]] = true := by decide
example : checkFile [["", "2023-01"], ["a", "1"], ["b!", "2"]] = false := by decide
example : checkFile [[""]] = true := by decide
example : checkFile [["", "2015-13"]] = true := by decide
example : goLen "éé" = 4 := by decide
example : get_columnsWidth [["éé"]] = some (.ok [4]) := rfl
example : get_columnsWidth specWidthTable = some (.ok [10, 4, 12]) := rfl
example : get_columnsWidth [["a", "b"], ["c"]] =
    some (.error ⟨2, 1, 2⟩) := rfl
example : get_columnsWidth [] = none := rfl
example : csvWrite [[""]] = "\n" := by decide
example : csvParse "\n" = some [] := by decide
example : csvWrite [["", "2023-01"], ["a,b", "x\"y"]] = ",2023-01\n\"a,b\",\"x\"\"y\"\n" := by decide
example : csvParse ",2023-01\n\"a,b\",\"x\"\"y\"\n" =
    some [["", "2023-01"], ["a,b", "x\"y"]] := by decide
example : checkFileOnText (csvWrite [[""]]) = false := by decide
example : markdownLines [3, 4] [["ab", "cd"], ["x", "12"], ["y", "9"]] =
    ["| ab  | cd   |", "| --- | ---: |", "| x   |   12 |", "| y   |    9 |"] := by decide

/-! ## Helper lemmas about the validator -/

/-- Characterization of a passing `checkFile` run: the header starts with the
empty cell and its remaining cells all contain a month match, every record
has the header's cell count, and every record after the first data record
passes the field checks. -/
theorem checkFile_eq_true_iff (t : List (List String)) :
    checkFile t = true ↔
      ∃ hrest rest, t = ("" :: hrest) :: rest ∧
        hrest.all containsMonth = true ∧
        (∀ r ∈ rest, r.length = hrest.length + 1) ∧
        (rest.drop 1).all checkRow = true := by
  cases t with
  | nil => simp [checkFile, checkFileR]
  | cons h rest =>
    cases h with
    | nil => simp [checkFile, checkFileR]
    | cons c0 hrest =>
      simp only [checkFile, checkFileR, decide_eq_true_eq]
      constructor
      · intro hok
        split_ifs at hok with h0 h1 h2 h3
        all_goals try simp at hok
        have hc0 : c0 = "" := by simpa using h0
        refine ⟨hrest, rest, by rw [hc0], by simpa using h1, ?_, by simpa using h3⟩
        intro r hr
        rw [Bool.not_eq_true, List.any_eq_false] at h2
        have h2r := h2 r hr
        simpa using h2r
      · rintro ⟨hrest', rest', heq, hm, hlen, hrows⟩
        simp only [List.cons.injEq] at heq
        obtain ⟨⟨hc0, hhr⟩, hrst⟩ := heq
        subst hc0; subst hhr; subst hrst
        have hany : (rest.any fun r => decide (r.length ≠ ("" :: hrest).length)) = false := by
          rw [List.any_eq_false]
          intro r hr
          simp only [List.length_cons, decide_eq_true_eq]
          intro hne
          exact hne (hlen r hr)
        rw [if_neg (by simp), if_neg (by simp [hm]), if_neg (by rw [hany]; simp),
          if_neg (by rw [hrows]; simp)]

/-- The submitter check of `checkFile` accepts exactly the strings of 1 to 39
characters drawn from ASCII letters, digits and the hyphen. -/
theorem checkIdent_eq_true_iff (s : String) :
    checkIdent s = true ↔
      1 ≤ s.length ∧ s.length ≤ 39 ∧ ∀ c ∈ s.data, isNameChar c = true := by
  have hlen : s.length = s.data.length := rfl
  simp only [checkIdent, Bool.and_eq_true, Nat.blt_eq, Bool.not_eq_true',
    List.isEmpty_iff, List.all_eq_true]
  constructor
  · rintro ⟨⟨h40, h0⟩, _, hall⟩
    exact ⟨h0, by omega, hall⟩
  · rintro ⟨h1, h39, hall⟩
    refine ⟨⟨by omega, h1⟩, ?_, hall⟩
    cases hd : s.data with
    | nil => rw [hd] at hlen; simp at hlen; omega
    | cons a l => rfl

/-- Every cell that matches the specification's strict year-month pattern also
matches the code's unanchored month regular expression. -/
theorem containsMonth_of_strict (s : String) (h : strictYearMonth s = true) :
    containsMonth s = true := by
  unfold strictYearMonth at h
  split at h
  case h_2 => exact absurd h (by simp)
  case h_1 y1 y2 m1 m2 heq =>
    simp only [Bool.and_eq_true, Bool.or_eq_true, decide_eq_true_eq] at h
    obtain ⟨⟨hy1, hy2⟩, hm⟩ := h
    have hy1d : y1.isDigit = true := by
      rcases hy1 with h' | h' <;> rw [h'] <;> decide
    have hm1d : m1.isDigit = true ∧ m2.isDigit = true := by
      rcases hm with ⟨⟨h1, h2⟩, _⟩ | ⟨h1, h2⟩
      · exact ⟨by rw [h1]; decide, h2⟩
      · refine ⟨by rw [h1]; decide, ?_⟩
        rcases h2 with (h' | h') | h' <;> rw [h'] <;> decide
    unfold containsMonth
    rw [heq]
    unfold monthSearch monthMatchAt
    simp [hy1d, hy2, hm1d.1, hm1d.2]

/-- A record after the first data record that fails its field checks makes
`checkFile` return `false`, whatever the rest of the table holds. -/
theorem checkFile_false_of_badRow (h r : List String) (rows : List (List String))
    (row : List String) (hmem : row ∈ rows) (hbad : checkRow row = false) :
    checkFile (h :: r :: rows) = false := by
  rw [Bool.eq_false_iff]
  intro hok
  rw [checkFile_eq_true_iff] at hok
  obtain ⟨hrest', rest', heq, _, _, hrows⟩ := hok
  simp only [List.cons.injEq] at heq
  obtain ⟨_, hrst⟩ := heq
  rw [← hrst] at hrows
  simp only [List.drop_succ_cons, List.drop_zero, List.all_eq_true] at hrows
  rw [hrows row hmem] at hbad
  exact absurd hbad (by simp)

/-! ## C1 — valid tables pass validation -/

/-- C1: a table whose header row has an empty first cell followed by cells
matching the year-month pattern, whose data rows all have the header's cell
count, whose identifiers have 1 to 39 characters drawn from letters, digits
and hyphen, and whose remaining cells all parse with `strconv.Atoi`, passes
`checkFile`. -/
theorem checkFile_accepts_valid_tables
    (hrest : List String) (rows : List (List String))
    (hm : ∀ s ∈ hrest, strictYearMonth s = true)
    (hlen : ∀ r ∈ rows, r.length = hrest.length + 1)
    (hid : ∀ r ∈ rows, 1 ≤ (r.headD "").length ∧ (r.headD "").length ≤ 39 ∧
      ∀ c ∈ (r.headD "").data, isNameChar c = true)
    (hint : ∀ r ∈ rows, ∀ s ∈ r.tail, (goAtoi s).isSome = true) :
    checkFile (("" :: hrest) :: rows) = true := by
  rw [checkFile_eq_true_iff]
  refine ⟨hrest, rows, rfl, ?_, hlen, ?_⟩
  · rw [List.all_eq_true]
    intro s hs
    exact containsMonth_of_strict s (hm s hs)
  · rw [List.all_eq_true]
    intro r hr
    have hr' : r ∈ rows := List.mem_of_mem_drop hr
    cases r with
    | nil => rfl
    | cons c cs =>
      have h1 := hid _ hr'
      have h2 := hint _ hr'
      simp only [List.headD_cons] at h1
      unfold checkRow
      rw [Bool.and_eq_true]
      refine ⟨(checkIdent_eq_true_iff c).mpr h1, ?_⟩
      rw [List.all_eq_true]
      intro s hs
      exact h2 s hs

/-- Witness for C1 at a concrete two-period, two-submitter table. -/
theorem checkFile_accepts_valid_tables_witness :
    ((∀ s ∈ (["2023-01", "2023-02"] : List String), strictYearMonth s = true) ∧
      (∀ r ∈ ([["alice", "12", "3"], ["bob-2", "7", "0"]] : List (List String)),
        r.length = 3) ∧
      (∀ r ∈ ([["alice", "12", "3"], ["bob-2", "7", "0"]] : List (List String)),
        1 ≤ (r.headD "").length ∧ (r.headD "").length ≤ 39 ∧
          ∀ c ∈ (r.headD "").data, isNameChar c = true) ∧
      (∀ r ∈ ([["alice", "12", "3"], ["bob-2", "7", "0"]] : List (List String)),
        ∀ s ∈ r.tail, (goAtoi s).isSome = true)) ∧
    checkFile [["", "2023-01", "2023-02"], ["alice", "12", "3"],
      ["bob-2", "7", "0"]] = true := by
  refine ⟨⟨by decide, by decide, by decide, by decide⟩, ?_⟩
  exact checkFile_accepts_valid_tables ["2023-01", "2023-02"]
    [["alice", "12", "3"], ["bob-2", "7", "0"]]
    (by decide) (by decide) (by decide) (by decide)

/-! ## C2 — malformed headers -/

/-- C2 counterexample: the header cell `2015-13` fails the specification's
strict year-month pattern (month 13), yet `checkFile` accepts the table,
because the code's regular expression `20[0-9]{2}-[0-9]{2}` allows any two
digit pairs and is matched unanchored. -/
theorem checkFile_malformed_header_counterexample :
    strictYearMonth "2015-13" = false ∧
      checkFile [["", "2015-13"]] = true := by
  exact ⟨by decide, by decide⟩

/-- C2 (amended): a table whose header has a non-empty first cell, or some
later header cell containing no substring matching `20[0-9]{2}-[0-9]{2}`,
is rejected by `checkFile`. -/
theorem checkFile_rejects_malformed_header
    (c0 : String) (hrest : List String) (rest : List (List String))
    (hbad : c0 ≠ "" ∨ ∃ s ∈ hrest, containsMonth s = false) :
    checkFile ((c0 :: hrest) :: rest) = false := by
  rw [Bool.eq_false_iff]
  intro hok
  rw [checkFile_eq_true_iff] at hok
  obtain ⟨hrest', rest', heq, hm, _, _⟩ := hok
  simp only [List.cons.injEq] at heq
  obtain ⟨⟨hc0, hhr⟩, _⟩ := heq
  rcases hbad with hb | ⟨s, hs, hcm⟩
  · exact hb hc0
  · rw [List.all_eq_true] at hm
    rw [hhr] at hs
    have := hm s hs
    rw [hcm] at this
    exact absurd this (by simp)

/-- Witness for C2's amended theorem: a header cell with no month substring. -/
theorem checkFile_rejects_malformed_header_witness :
    ("junk" ∈ (["junk"] : List String) ∧ containsMonth "junk" = false) ∧
      checkFile [["", "junk"]] = false := by
  refine ⟨⟨by decide, by decide⟩, ?_⟩
  exact checkFile_rejects_malformed_header "" ["junk"] []
    (Or.inr ⟨"junk", by decide, by decide⟩)

/-! ## C5 — integer cells -/

/-- C5 counterexample.  First part: the non-integer cell `xx` sits in the
first data record, which the loop in `checkFile` skips (it believes index 0 of
`records` is the header, but the header was already consumed by `r.Read()`),
so the table passes.  Second part: a cell of 20 decimal digits is a perfectly
formed base-10 integer but exceeds the signed 64-bit range, so `strconv.Atoi`
fails and the table is rejected. -/
theorem checkFile_integer_cells_counterexample :
    (goAtoi "xx" = none ∧
      checkFile [["", "2023-01"], ["alice", "xx"]] = true) ∧
    ("99999999999999999999".data.all Char.isDigit = true ∧
      checkFile [["", "2023-01"], ["a", "0"],
        ["bob", "99999999999999999999"]] = false) := by
  exact ⟨⟨by decide, by decide⟩, ⟨by decide, by decide⟩⟩

/-- C5 (amended): in data records after the first, a cell other than the
identifier that fails `strconv.Atoi` (optional sign, base-10 digits, value
within the signed 64-bit range) makes `checkFile` return `false`; the first
data record's cells are never field-checked, only its cell count matters. -/
theorem checkFile_integer_cells_amended
    (h r row : List String) (rows : List (List String)) (cell : String)
    (hmem : row ∈ rows) (hcell : cell ∈ row.tail) (hbad : goAtoi cell = none) :
    checkFile (h :: r :: rows) = false ∧
      ∀ (r₁ r₂ : List String) (rs : List (List String)),
        r₁.length = r₂.length →
        checkFile (h :: r₁ :: rs) = checkFile (h :: r₂ :: rs) := by
  constructor
  · refine checkFile_false_of_badRow h r rows row hmem ?_
    cases row with
    | nil => exact absurd hcell (by simp)
    | cons c cs =>
      simp only [List.tail_cons] at hcell
      unfold checkRow
      rw [Bool.eq_false_iff]
      intro hok
      rw [Bool.and_eq_true, List.all_eq_true] at hok
      have := hok.2 cell hcell
      rw [hbad] at this
      exact absurd this (by simp)
  · intro r₁ r₂ rs hlen12
    cases h with
    | nil => rfl
    | cons c0 hr =>
      simp only [checkFile, checkFileR, List.any_cons, List.drop_succ_cons,
        List.drop_zero, List.length_cons, hlen12]

/-- Witness for C5's amended theorem at a concrete table. -/
theorem checkFile_integer_cells_amended_witness :
    (["bob", "zz"] ∈ ([[ "bob", "zz"]] : List (List String)) ∧
      "zz" ∈ (["bob", "zz"] : List String).tail ∧ goAtoi "zz" = none) ∧
    checkFile [["", "2023-01"], ["a", "1"], ["bob", "zz"]] = false := by
  refine ⟨⟨by decide, by decide, by decide⟩, ?_⟩
  exact (checkFile_integer_cells_amended ["", "2023-01"] ["a", "1"]
    ["bob", "zz"] [["bob", "zz"]] "zz" (by decide) (by decide) (by decide)).1

/-! ## C6 — column-count mismatch -/

/-- C6: a record whose cell count differs from the header's makes `checkFile`
return `false`, whatever the cell contents are; and whenever the header
itself passes its checks this failure is reported as the
`ColumnCountMismatch` exit (the `ErrFieldCount` error of `ReadAll`), which
the code reaches before any field-level check on any record. -/
theorem checkFile_column_count_mismatch
    (h : List String) (rest : List (List String)) (r : List String)
    (hr : r ∈ rest) (hmm : r.length ≠ h.length) :
    checkFile (h :: rest) = false ∧
      (∀ c0 hrest, h = c0 :: hrest → c0 = "" →
        hrest.all containsMonth = true →
        checkFileR (h :: rest) = .columnCountMismatch) := by
  constructor
  · rw [Bool.eq_false_iff]
    intro hok
    rw [checkFile_eq_true_iff] at hok
    obtain ⟨hrest', rest', heq, _, hlen, _⟩ := hok
    simp only [List.cons.injEq] at heq
    obtain ⟨hh, hrst⟩ := heq
    rw [← hrst] at hlen
    have := hlen r hr
    rw [hh] at hmm
    simp only [List.length_cons] at hmm
    exact hmm this
  · intro c0 hrest hh hc0 hmonth
    subst hh; subst hc0
    simp only [checkFileR]
    rw [if_neg (by simp), if_neg (by rw [hmonth]; simp), if_pos]
    rw [List.any_eq_true]
    refine ⟨r, hr, ?_⟩
    simp only [decide_eq_true_eq]
    exact hmm

/-- Witness for C6: a one-cell record under a two-cell header. -/
theorem checkFile_column_count_mismatch_witness :
    (["a"] ∈ ([[ "a"]] : List (List String)) ∧
      (["a"] : List String).length ≠ (["", "2023-01"] : List String).length) ∧
    checkFile [["", "2023-01"], ["a"]] = false ∧
    checkFileR [["", "2023-01"], ["a"]] = .columnCountMismatch := by
  have h := checkFile_column_count_mismatch ["", "2023-01"] [["a"]] ["a"]
    (by decide) (by decide)
  exact ⟨⟨by decide, by decide⟩, h.1, h.2 "" ["2023-01"] rfl rfl (by decide)⟩

/-! ## C7 — identifier cells -/

/-- C7 counterexample: the identifier `!!` violates the pattern, but it sits
in the first data record, which `checkFile`'s loop skips, so the table
passes. -/
theorem checkFile_identifier_counterexample :
    checkIdent "!!" = false ∧ isNameChar '!' = false ∧
      checkFile [["", "2023-01"], ["!!", "3"]] = true := by
  exact ⟨by decide, by decide, by decide⟩

/-- C7 (amended): the identifier check accepts exactly the strings of 1 to 39
characters drawn from letters, digits and hyphen — in particular identifiers
beginning or ending with a hyphen or containing a doubled hyphen — and in
data records after the first, a first cell failing it makes `checkFile`
return `false`; the first data record's identifier is never checked. -/
theorem checkFile_identifier_amended
    (s : String) (h r : List String) (rows : List (List String))
    (row : List String) (c : String) (cs : List String)
    (hmem : row ∈ rows) (hrow : row = c :: cs) (hbad : checkIdent c = false) :
    (checkIdent s = true ↔
      1 ≤ s.length ∧ s.length ≤ 39 ∧ ∀ ch ∈ s.data, isNameChar ch = true) ∧
    checkIdent "-alice--bob-" = true ∧
    checkFile (h :: r :: rows) = false := by
  refine ⟨checkIdent_eq_true_iff s, by decide, ?_⟩
  refine checkFile_false_of_badRow h r rows row hmem ?_
  subst hrow
  simp [checkRow, hbad]

/-- Witness for C7's amended theorem at a concrete table. -/
theorem checkFile_identifier_amended_witness :
    (["b b", "1"] ∈ ([[ "b b", "1"]] : List (List String)) ∧
      checkIdent "b b" = false) ∧
    checkFile [["", "2023-01"], ["a", "1"], ["b b", "1"]] = false := by
  refine ⟨⟨by decide, by decide⟩, ?_⟩
  exact (checkFile_identifier_amended "x" ["", "2023-01"] ["a", "1"]
    [["b b", "1"]] ["b b", "1"] "b b" ["1"] (by decide) rfl (by decide)).2.2

/-! ## Helper lemmas about get_columnsWidth -/

/-- Width update keeps the vector length when the row is as long. -/
theorem updateWidths_length (ws : List Nat) (row : List String)
    (h : row.length = ws.length) : (updateWidths ws row).length = ws.length := by
  simp [updateWidths, h]

/-- Entrywise description of one width update. -/
theorem updateWidths_getD (ws : List Nat) (row : List String) (k : Nat)
    (hlen : row.length = ws.length) (hk : k < ws.length) :
    (updateWidths ws row).getD k 0 =
      Nat.max (ws.getD k 0) (goLen (row.getD k "")) := by
  induction ws generalizing row k with
  | nil => simp at hk
  | cons w ws ih =>
    cases row with
    | nil => simp at hlen
    | cons c row =>
      cases k with
      | zero => simp [updateWidths]
      | succ k =>
        simp only [updateWidths, List.zipWith_cons_cons, List.getD_cons_succ]
        exact ih row k (by simpa using hlen) (by simpa using hk)

/-- A nonzero-length default value for `getD` on `List.replicate`. -/
theorem replicate_getD (n k : Nat) : (List.replicate n 0).getD k 0 = 0 := by
  induction n generalizing k with
  | zero => simp
  | succ n ih =>
    cases k with
    | zero => simp
    | succ k => simp [List.replicate_succ, ih k]

/-- On a table whose rows all have `announced` cells, the width loop succeeds
and each resulting entry is the maximum of the accumulator entry and the
column maximum. -/
theorem gcwLoop_ok_of_rect (announced : Nat) (rows : List (List String)) :
    ∀ (n : Nat) (ws : List Nat), ws.length = announced →
      (∀ r ∈ rows, r.length = announced) →
      ∃ w, gcwLoop announced n ws rows = .ok w ∧ w.length = announced ∧
        ∀ k, k < announced →
          w.getD k 0 = Nat.max (ws.getD k 0) (colMax rows k) := by
  induction rows with
  | nil =>
    intro n ws hws _
    exact ⟨ws, rfl, hws, fun k _ => by simp [colMax]⟩
  | cons row rest ih =>
    intro n ws hws hrect
    have hrow : row.length = announced := hrect row (by simp)
    have hrest : ∀ r ∈ rest, r.length = announced := fun r hr =>
      hrect r (List.mem_cons_of_mem _ hr)
    have hulen : (updateWidths ws row).length = announced := by
      rw [updateWidths_length ws row (by rw [hws, hrow])]
      exact hws
    obtain ⟨w, hok, hwlen, hget⟩ := ih (n + 1) (updateWidths ws row) hulen hrest
    refine ⟨w, ?_, hwlen, ?_⟩
    · simp only [gcwLoop]
      rw [if_neg (by rw [hrow]; simp)]
      exact hok
    · intro k hk
      rw [hget k hk,
        updateWidths_getD ws row k (by rw [hws, hrow]) (by rw [hws]; exact hk)]
      have : colMax (row :: rest) k =
          Nat.max (goLen (row.getD k "")) (colMax rest k) := by
        simp [colMax]
      rw [this]
      exact Nat.max_assoc _ _ _

/-! ## C3 — column-width computation -/

/-- C3: on a non-empty table whose rows all have the first row's cell count,
`get_columnsWidth` returns a vector with one entry per column, each equal to
the maximum cell length in that column across all rows, measured as Go's
`len` does (UTF-8 bytes; an empty cell counts as length 0). -/
theorem get_columnsWidth_computes_max (r0 : List String)
    (rest : List (List String)) (hrect : ∀ r ∈ rest, r.length = r0.length) :
    ∃ w, get_columnsWidth (r0 :: rest) = some (Except.ok w) ∧
      w.length = r0.length ∧
      ∀ k, k < r0.length → w.getD k 0 = colMax (r0 :: rest) k := by
  have hall : ∀ r ∈ (r0 :: rest), r.length = r0.length := by
    intro r hr
    rcases List.mem_cons.mp hr with h | h
    · rw [h]
    · exact hrect r h
  obtain ⟨w, hok, hwlen, hget⟩ := gcwLoop_ok_of_rect r0.length (r0 :: rest) 0
    (List.replicate r0.length 0) (by simp) hall
  refine ⟨w, ?_, hwlen, ?_⟩
  · simp only [get_columnsWidth]
    rw [hok]
  · intro k hk
    rw [hget k hk, replicate_getD]
    simp

/-- Witness for C3 at the specification's four-row example table: the result
is exactly `[10, 4, 12]`. -/
theorem get_columnsWidth_computes_max_witness :
    ((∀ r ∈ ([["aaa aaa aa", "124", "cccccccccc"], ["aaa", "12", "cccccccccc"],
        ["aaa", "1024", "cccccccccccc"]] : List (List String)), r.length = 3) ∧
      ∃ w, get_columnsWidth specWidthTable = some (Except.ok w) ∧
        w.length = 3 ∧ ∀ k, k < 3 → w.getD k 0 = colMax specWidthTable k) ∧
    get_columnsWidth specWidthTable = some (Except.ok [10, 4, 12]) := by
  refine ⟨⟨by decide, ?_⟩, rfl⟩
  exact get_columnsWidth_computes_max ["aaa aaa", "12", "ccccccc"]
    [["aaa aaa aa", "124", "cccccccccc"], ["aaa", "12", "cccccccccc"],
      ["aaa", "1024", "cccccccccccc"]] (by decide)

/-! ## C8 — column mismatch aborts width computation -/

/-- The width loop stops at the first record whose cell count differs from
`announced`, reporting its 1-based line number and both counts. -/
theorem gcwLoop_error_of_mismatch (announced : Nat) :
    ∀ (rows : List (List String)) (n : Nat) (ws : List Nat),
      (∃ r ∈ rows, r.length ≠ announced) →
      ∃ j, j < rows.length ∧ (rows.getD j []).length ≠ announced ∧
        gcwLoop announced n ws rows =
          .error ⟨n + j + 1, (rows.getD j []).length, announced⟩ := by
  intro rows
  induction rows with
  | nil =>
    intro n ws hmm
    exact absurd hmm (by simp)
  | cons row rest ih =>
    intro n ws hmm
    by_cases hrow : row.length = announced
    · have hrest : ∃ r ∈ rest, r.length ≠ announced := by
        rcases hmm with ⟨r, hr, hne⟩
        rcases List.mem_cons.mp hr with h | h
        · rw [h] at hne; exact absurd hrow hne
        · exact ⟨r, h, hne⟩
      obtain ⟨j, hj, hbad, hrun⟩ := ih (n + 1) (updateWidths ws row) hrest
      refine ⟨j + 1, by simpa using hj, by simpa using hbad, ?_⟩
      simp only [gcwLoop]
      rw [if_neg (by rw [hrow]; simp)]
      rw [hrun]
      simp only [List.getD_cons_succ]
      rw [show n + 1 + j + 1 = n + (j + 1) + 1 from by omega]
    · refine ⟨0, by simp, by simpa using hrow, ?_⟩
      simp only [gcwLoop, List.getD_cons_zero]
      rw [if_pos hrow]

/-- C8: when some row's cell count differs from the first row's,
`get_columnsWidth` returns an error identifying the offending line (its
1-based index, its cell count and the expected count) and no width vector
(the `Except.error` exit carries none; the Go function returns `nil`). -/
theorem get_columnsWidth_mismatch_error (r0 : List String)
    (rest : List (List String)) (hmm : ∃ r ∈ rest, r.length ≠ r0.length) :
    ∃ j, j < (r0 :: rest).length ∧
      ((r0 :: rest).getD j []).length ≠ r0.length ∧
      get_columnsWidth (r0 :: rest) =
        some (.error ⟨j + 1, ((r0 :: rest).getD j []).length, r0.length⟩) := by
  have hmm' : ∃ r ∈ (r0 :: rest), r.length ≠ r0.length := by
    rcases hmm with ⟨r, hr, hne⟩
    exact ⟨r, List.mem_cons_of_mem _ hr, hne⟩
  obtain ⟨j, hj, hbad, hrun⟩ := gcwLoop_error_of_mismatch r0.length (r0 :: rest)
    0 (List.replicate r0.length 0) hmm'
  refine ⟨j, hj, hbad, ?_⟩
  simp only [get_columnsWidth]
  rw [hrun]
  rw [show 0 + j + 1 = j + 1 from by omega]

/-- Witness for C8 at the test suite's mismatch table shape. -/
theorem get_columnsWidth_mismatch_error_witness :
    (∃ r ∈ ([["c"]] : List (List String)), r.length ≠ 2) ∧
    (∃ j, j < ([["a", "b"], ["c"]] : List (List String)).length ∧
      (([["a", "b"], ["c"]] : List (List String)).getD j []).length ≠ 2 ∧
      get_columnsWidth [["a", "b"], ["c"]] =
        some (.error ⟨j + 1,
          (([["a", "b"], ["c"]] : List (List String)).getD j []).length, 2⟩)) := by
  refine ⟨⟨["c"], by decide, by decide⟩, ?_⟩
  exact get_columnsWidth_mismatch_error ["a", "b"] [["c"]]
    ⟨["c"], by decide, by decide⟩

/-! ## C10 — totality of get_columnsWidth on non-empty tables -/

/-- C10: `get_columnsWidth` reads row 0 unconditionally, so on the empty
table the access is out of bounds (modelled by `none`, a Go panic); on every
non-empty table it totally returns either a width vector or a mismatch
error. -/
theorem get_columnsWidth_defined_iff_nonempty (t : List (List String))
    (h : t ≠ []) :
    (get_columnsWidth t).isSome = true ∧
      get_columnsWidth ([] : List (List String)) = none := by
  constructor
  · cases t with
    | nil => exact absurd rfl h
    | cons r0 rest => simp [get_columnsWidth]
  · rfl

/-- Witness for C10 at a one-row table. -/
theorem get_columnsWidth_defined_iff_nonempty_witness :
    (([["a"]] : List (List String)) ≠ []) ∧
    (get_columnsWidth [["a"]]).isSome = true ∧
      get_columnsWidth ([] : List (List String)) = none := by
  refine ⟨by decide, ?_⟩
  exact get_columnsWidth_defined_iff_nonempty [["a"]] (by decide)

/-! ## C4 — Markdown alignment and separator row -/

/-- From `lineNumber` 2 on, the Markdown loop only emits plain data rows. -/
theorem markdownLinesFrom_ge_two (ws : List Nat) :
    ∀ (t : List (List String)) (n : Nat), 2 ≤ n →
      markdownLinesFrom ws n t = t.map (rowLine ws) := by
  intro t
  induction t with
  | nil => intro n _; rfl
  | cons row rest ih =>
    intro n hn
    simp only [markdownLinesFrom, List.map_cons]
    rw [if_neg (by omega), ih (n + 1) (by omega)]
    rfl

/-- C4: a cell parsing with `strconv.Atoi` is right-aligned (left-padded) to
its column width and any other cell is left-aligned (right-padded); the
separator row is emitted immediately after the header row (it is built while
processing the second row, `lineNumber == 1`, and printed before it), and a
right-aligned column yields `width-1` dashes followed by `:` while a
left-aligned column yields exactly `width` dashes — all fragments having
exactly the column's width. -/
theorem markdown_alignment_and_separator
    (ws : List Nat) (w : Nat) (s : String) (r0 r1 : List String)
    (rest : List (List String)) (hw : s.length ≤ w) :
    ((goAtoi s).isSome = true →
      formatCell w s = String.mk (List.replicate (w - s.length) ' ' ++ s.data) ∧
      (formatCell w s).length = w) ∧
    ((goAtoi s).isSome = false →
      formatCell w s = String.mk (s.data ++ List.replicate (w - s.length) ' ') ∧
      (formatCell w s).length = w) ∧
    ((goAtoi s).isSome = true → 1 ≤ w →
      underlineCell w s = String.mk (List.replicate (w - 1) '-' ++ [':']) ∧
      (underlineCell w s).length = w) ∧
    ((goAtoi s).isSome = false →
      underlineCell w s = String.mk (List.replicate w '-') ∧
      (underlineCell w s).length = w) ∧
    markdownLines ws (r0 :: r1 :: rest) =
      rowLine ws r0 :: underlineLine ws r1 :: rowLine ws r1 ::
        rest.map (rowLine ws) := by
  have hlen : s.length = s.data.length := rfl
  refine ⟨?_, ?_, ?_, ?_, ?_⟩
  · intro hnum
    have hew : exactWidth w s = (w : Int) := by simp [exactWidth, hnum]
    constructor
    · simp [formatCell, sprintfPad, hew]
    · simp only [formatCell, sprintfPad, hew]
      rw [if_pos (by positivity)]
      simp only [String.length]
      simp only [List.length_append, List.length_replicate, Int.toNat_natCast]
      omega
  · intro hnum
    have hew : exactWidth w s = 0 - (w : Int) := by simp [exactWidth, hnum]
    by_cases hw0 : w = 0
    · subst hw0
      have hs0 : s.data = [] := List.length_eq_zero.mp (by omega)
      have hsl : s.length = 0 := by omega
      constructor
      · simp only [formatCell, sprintfPad, hew, hs0, hsl]
        rw [if_pos (by norm_num)]
        rfl
      · simp only [formatCell, sprintfPad, hew, hs0, hsl]
        rw [if_pos (by norm_num)]
        rfl
    · constructor
      · simp only [formatCell, sprintfPad, hew]
        rw [if_neg (by omega)]
        congr 1
        congr 1
        congr 1
        omega
      · simp only [formatCell, sprintfPad, hew]
        rw [if_neg (by omega)]
        simp only [String.length, List.length_append, List.length_replicate]
        have : (0 - (w : Int)).natAbs = w := by omega
        omega
  · intro hnum hw1
    have hew : exactWidth w s = (w : Int) := by simp [exactWidth, hnum]
    have hform : underlineCell w s =
        String.mk (List.replicate (w - 1) '-' ++ [':']) := by
      simp only [underlineCell, hew]
      rw [if_neg (by omega)]
      rfl
    refine ⟨hform, ?_⟩
    rw [hform]
    show (List.replicate (w - 1) '-' ++ [':']).length = w
    simp only [List.length_append, List.length_replicate, List.length_singleton]
    omega
  · intro hnum
    have hew : exactWidth w s = 0 - (w : Int) := by simp [exactWidth, hnum]
    have hform : underlineCell w s = String.mk (List.replicate w '-') := by
      simp only [underlineCell, hew]
      rw [if_pos (by omega)]
    refine ⟨hform, ?_⟩
    rw [hform]
    show (List.replicate w '-').length = w
    simp
  · simp only [markdownLines, markdownLinesFrom,
      markdownLinesFrom_ge_two ws rest (0 + 1 + 1) (by omega)]
    simp

/-- Witness for C4: a numeric and a text cell in a concrete table. -/
theorem markdown_alignment_and_separator_witness :
    (("12" : String).length ≤ 4 ∧ (goAtoi "12").isSome = true ∧
      (goAtoi "ab").isSome = false) ∧
    (formatCell 4 "12" = String.mk (List.replicate 2 ' ' ++ "12".data) ∧
      (formatCell 4 "12").length = 4) ∧
    markdownLines [3, 4] ([["ab", "cd"], ["x", "12"], ["y", "9"]]) =
      rowLine [3, 4] ["ab", "cd"] :: underlineLine [3, 4] ["x", "12"] ::
        rowLine [3, 4] ["x", "12"] ::
          ([["y", "9"]] : List (List String)).map (rowLine [3, 4]) := by
  have h := markdown_alignment_and_separator [3, 4] 4 "12" ["ab", "cd"]
    ["x", "12"] [["y", "9"]] (by decide)
  exact ⟨⟨by decide, by decide, by decide⟩, h.1 (by decide), h.2.2.2.2⟩

/-! ## C9 — CSV round trip -/

/-- C9 counterexample: the header-only table `[[""]]` (a single empty cell:
an empty first column name and no period columns) is accepted by `checkFile`,
but `csv.Writer` writes its single empty record as a bare blank line, which
the reader silently skips on re-parsing, so validating the written output
fails with a read error instead of passing. -/
theorem csv_roundtrip_counterexample :
    checkFile [[""]] = true ∧ csvWrite [[""]] = "\n" ∧
      csvParse (csvWrite [[""]]) = some [] ∧
      checkFileOnText (csvWrite [[""]]) = false := by
  exact ⟨by decide, rfl, rfl, by decide⟩

/-- Reading back the data list of a string built from a character list. -/
theorem string_mk_data (s : String) : String.mk s.data = s := rfl

/-- A field the CSV writer leaves unquoted contains no separator, quote,
carriage return or line feed. -/
theorem no_specials_of_not_quoted (f : String)
    (h : fieldNeedsQuotes f = false) :
    ∀ c ∈ f.data, c ≠ ',' ∧ c ≠ '"' ∧ c ≠ '\r' ∧ c ≠ '\n' := by
  intro c hc
  unfold fieldNeedsQuotes at h
  split_ifs at h with h1 h2 h3
  · rw [h1] at hc
    exact absurd hc (by simp)
  · rw [Bool.not_eq_true, List.any_eq_false] at h3
    have := h3 c hc
    simp only [Bool.or_eq_true, decide_eq_true_eq, not_or] at this
    exact ⟨this.1.1.1, this.1.1.2, this.1.2, this.2⟩

/-- Scanning an escaped quoted-field body consumes it entirely and ends just
after the closing quote, with the body accumulated. -/
theorem csvScan_escaped_body (d : List Char) :
    ∀ (recs : List (List String)) (fields : List String) (cur rest : List Char),
      csvScan recs fields cur .inQuotes (escapeQuoted d ++ '"' :: rest) =
        csvScan recs fields (d.reverse ++ cur) .afterQuote rest := by
  induction d with
  | nil =>
    intro recs fields cur rest
    simp [escapeQuoted, csvScan]
  | cons c d ih =>
    intro recs fields cur rest
    by_cases hc : c = '"'
    · subst hc
      show csvScan recs fields cur .inQuotes
        ('"' :: '"' :: (escapeQuoted d ++ '"' :: rest)) = _
      simp only [csvScan, if_pos rfl]
      rw [ih]
      simp
    · show csvScan recs fields cur .inQuotes
        ((if c = '"' then '"' :: '"' :: escapeQuoted d else c :: escapeQuoted d)
          ++ '"' :: rest) = _
      rw [if_neg hc]
      show csvScan recs fields cur .inQuotes
        (c :: (escapeQuoted d ++ '"' :: rest)) = _
      simp only [csvScan, if_neg hc]
      rw [ih]
      simp

/-- Scanning a run of ordinary characters inside an unquoted field just
accumulates them. -/
theorem csvScan_unquoted_run (d : List Char) :
    ∀ (recs : List (List String)) (fields : List String) (cur rest : List Char),
      (∀ c ∈ d, c ≠ ',' ∧ c ≠ '"' ∧ c ≠ '\n') →
      csvScan recs fields cur .unquoted (d ++ rest) =
        csvScan recs fields (d.reverse ++ cur) .unquoted rest := by
  induction d with
  | nil =>
    intro recs fields cur rest _
    simp
  | cons c d ih =>
    intro recs fields cur rest hd
    have hc := hd c (by simp)
    show csvScan recs fields cur .unquoted (c :: (d ++ rest)) = _
    simp only [csvScan, if_neg hc.1, if_neg hc.2.1, if_neg hc.2.2]
    rw [ih recs fields (c :: cur) rest (fun x hx => hd x (by simp [hx]))]
    simp

/-- One scan step: a separator right after a closing quote ends the field. -/
theorem csvScan_afterQuote_comma (recs : List (List String))
    (fields : List String) (cur rest : List Char) :
    csvScan recs fields cur .afterQuote (',' :: rest) =
      csvScan recs (fields ++ [String.mk cur.reverse]) [] .fieldStart rest := by
  simp [csvScan]

/-- One scan step: a line feed right after a closing quote ends the record. -/
theorem csvScan_afterQuote_newline (recs : List (List String))
    (fields : List String) (cur rest : List Char) :
    csvScan recs fields cur .afterQuote ('\n' :: rest) =
      csvScan (recs ++ [fields ++ [String.mk cur.reverse]]) [] [] .recordStart rest := by
  simp [csvScan]

/-- One scan step: an opening quote at the start of a field. -/
theorem csvScan_fieldStart_quote (recs : List (List String))
    (fields : List String) (rest : List Char) :
    csvScan recs fields [] .fieldStart ('"' :: rest) =
      csvScan recs fields [] .inQuotes rest := by
  simp [csvScan]

/-- One scan step: a separator at the start of a field yields an empty field. -/
theorem csvScan_fieldStart_comma (recs : List (List String))
    (fields : List String) (rest : List Char) :
    csvScan recs fields [] .fieldStart (',' :: rest) =
      csvScan recs (fields ++ [""]) [] .fieldStart rest := by
  simp [csvScan]

/-- One scan step: a line feed at the start of a field yields an empty field
and ends the record. -/
theorem csvScan_fieldStart_newline (recs : List (List String))
    (fields : List String) (rest : List Char) :
    csvScan recs fields [] .fieldStart ('\n' :: rest) =
      csvScan (recs ++ [fields ++ [""]]) [] [] .recordStart rest := by
  simp [csvScan]

/-- One scan step: an ordinary character opens an unquoted field. -/
theorem csvScan_fieldStart_other (recs : List (List String))
    (fields : List String) (c : Char) (rest : List Char)
    (hc1 : c ≠ ',') (hc2 : c ≠ '"') (hc3 : c ≠ '\n') :
    csvScan recs fields [] .fieldStart (c :: rest) =
      csvScan recs fields [c] .unquoted rest := by
  simp [csvScan, hc1, hc2, hc3]

/-- One scan step: a separator ends an unquoted field. -/
theorem csvScan_unquoted_comma (recs : List (List String))
    (fields : List String) (cur rest : List Char) :
    csvScan recs fields cur .unquoted (',' :: rest) =
      csvScan recs (fields ++ [String.mk cur.reverse]) [] .fieldStart rest := by
  simp [csvScan]

/-- One scan step: a line feed ends an unquoted field and its record. -/
theorem csvScan_unquoted_newline (recs : List (List String))
    (fields : List String) (cur rest : List Char) :
    csvScan recs fields cur .unquoted ('\n' :: rest) =
      csvScan (recs ++ [fields ++ [String.mk cur.reverse]]) [] [] .recordStart rest := by
  simp [csvScan]

/-- One scan step: a blank line at the start of a record is skipped. -/
theorem csvScan_recordStart_newline (recs : List (List String))
    (rest : List Char) :
    csvScan recs [] [] .recordStart ('\n' :: rest) =
      csvScan recs [] [] .recordStart rest := by
  simp [csvScan]

/-- At the start of a record, any character other than a line feed behaves
exactly as at the start of a field. -/
theorem csvScan_recordStart_eq_fieldStart (recs : List (List String))
    (c : Char) (rest : List Char) (hc : c ≠ '\n') :
    csvScan recs [] [] .recordStart (c :: rest) =
      csvScan recs [] [] .fieldStart (c :: rest) := by
  simp [csvScan, hc]

/-- Scanning a written field followed by a separator appends that field. -/
theorem csvScan_field_comma (f : String) (recs : List (List String))
    (fields : List String) (rest : List Char) :
    csvScan recs fields [] .fieldStart (writeFieldChars f ++ ',' :: rest) =
      csvScan recs (fields ++ [f]) [] .fieldStart rest := by
  by_cases hq : fieldNeedsQuotes f = true
  · rw [show writeFieldChars f = '"' :: (escapeQuoted f.data ++ ['"']) from by
      simp [writeFieldChars, hq]]
    rw [List.cons_append, csvScan_fieldStart_quote, List.append_assoc,
      List.singleton_append, csvScan_escaped_body, csvScan_afterQuote_comma,
      List.append_nil, List.reverse_reverse, string_mk_data]
  · have hq' : fieldNeedsQuotes f = false := by simpa using hq
    have hns := no_specials_of_not_quoted f hq'
    rw [show writeFieldChars f = f.data from by simp [writeFieldChars, hq']]
    cases hd : f.data with
    | nil =>
      have hf : "" = f := by rw [← string_mk_data f, hd]
      show csvScan recs fields [] ScanMode.fieldStart (',' :: rest) = _
      rw [csvScan_fieldStart_comma, hf]
    | cons c cs =>
      have hc := hns c (by rw [hd]; simp)
      show csvScan recs fields [] ScanMode.fieldStart
        (c :: (cs ++ ',' :: rest)) = _
      rw [csvScan_fieldStart_other recs fields c _ hc.1 hc.2.1 hc.2.2.2,
        csvScan_unquoted_run cs recs fields [c] (',' :: rest)
          (fun x hx => by
            have hx' := hns x (by rw [hd]; simp [hx])
            exact ⟨hx'.1, hx'.2.1, hx'.2.2.2⟩),
        csvScan_unquoted_comma]
      have hrev : (cs.reverse ++ [c]).reverse = c :: cs := by simp
      rw [hrev, ← hd, string_mk_data]

/-- Scanning a written field followed by a line feed appends that field and
closes the record. -/
theorem csvScan_field_newline (f : String) (recs : List (List String))
    (fields : List String) (rest : List Char) :
    csvScan recs fields [] .fieldStart (writeFieldChars f ++ '\n' :: rest) =
      csvScan (recs ++ [fields ++ [f]]) [] [] .recordStart rest := by
  by_cases hq : fieldNeedsQuotes f = true
  · rw [show writeFieldChars f = '"' :: (escapeQuoted f.data ++ ['"']) from by
      simp [writeFieldChars, hq]]
    rw [List.cons_append, csvScan_fieldStart_quote, List.append_assoc,
      List.singleton_append, csvScan_escaped_body, csvScan_afterQuote_newline,
      List.append_nil, List.reverse_reverse, string_mk_data]
  · have hq' : fieldNeedsQuotes f = false := by simpa using hq
    have hns := no_specials_of_not_quoted f hq'
    rw [show writeFieldChars f = f.data from by simp [writeFieldChars, hq']]
    cases hd : f.data with
    | nil =>
      have hf : "" = f := by rw [← string_mk_data f, hd]
      show csvScan recs fields [] ScanMode.fieldStart ('\n' :: rest) = _
      rw [csvScan_fieldStart_newline, hf]
    | cons c cs =>
      have hc := hns c (by rw [hd]; simp)
      show csvScan recs fields [] ScanMode.fieldStart
        (c :: (cs ++ '\n' :: rest)) = _
      rw [csvScan_fieldStart_other recs fields c _ hc.1 hc.2.1 hc.2.2.2,
        csvScan_unquoted_run cs recs fields [c] ('\n' :: rest)
          (fun x hx => by
            have hx' := hns x (by rw [hd]; simp [hx])
            exact ⟨hx'.1, hx'.2.1, hx'.2.2.2⟩),
        csvScan_unquoted_newline]
      have hrev : (cs.reverse ++ [c]).reverse = c :: cs := by simp
      rw [hrev, ← hd, string_mk_data]

/-- Scanning a whole written record from the start of a field appends the
record. -/
theorem csvScan_record (r : List String) :
    ∀ (recs : List (List String)) (fields : List String) (rest : List Char),
      r ≠ [] →
      csvScan recs fields [] .fieldStart (writeRecordChars r ++ rest) =
        csvScan (recs ++ [fields ++ r]) [] [] .recordStart rest := by
  induction r with
  | nil => intro _ _ _ h; exact absurd rfl h
  | cons f fs ih =>
    intro recs fields rest _
    cases fs with
    | nil =>
      show csvScan recs fields [] .fieldStart
        ((writeFieldChars f ++ ['\n']) ++ rest) = _
      rw [List.append_assoc, List.singleton_append, csvScan_field_newline]
    | cons f' fs' =>
      show csvScan recs fields [] .fieldStart
        ((writeFieldChars f ++ ',' :: writeRecordChars (f' :: fs')) ++ rest) = _
      rw [List.append_assoc, List.cons_append, csvScan_field_comma,
        ih recs (fields ++ [f]) rest (by simp)]
      simp

/-- The first character of a written record is never a line feed when the
record is neither empty nor the single empty field (the two shapes the writer
renders as a blank line). -/
theorem writeRecordChars_head_ne_newline (r : List String) (h0 : r ≠ [])
    (h1 : r ≠ [""]) :
    ∃ c cs, writeRecordChars r = c :: cs ∧ c ≠ '\n' := by
  cases r with
  | nil => exact absurd rfl h0
  | cons f fs =>
    by_cases hq : fieldNeedsQuotes f = true
    · have hw : writeFieldChars f = '"' :: (escapeQuoted f.data ++ ['"']) := by
        simp [writeFieldChars, hq]
      cases fs with
      | nil =>
        refine ⟨'"', (escapeQuoted f.data ++ ['"']) ++ ['\n'], ?_, by decide⟩
        show writeFieldChars f ++ ['\n'] = _
        rw [hw]
        rfl
      | cons f' fs' =>
        refine ⟨'"', (escapeQuoted f.data ++ ['"']) ++
          ',' :: writeRecordChars (f' :: fs'), ?_, by decide⟩
        show writeFieldChars f ++ ',' :: writeRecordChars (f' :: fs') = _
        rw [hw]
        rfl
    · have hq' : fieldNeedsQuotes f = false := by simpa using hq
      have hw : writeFieldChars f = f.data := by simp [writeFieldChars, hq']
      cases hd : f.data with
      | cons c cs =>
        have hc := no_specials_of_not_quoted f hq' c (by rw [hd]; simp)
        cases fs with
        | nil =>
          refine ⟨c, cs ++ ['\n'], ?_, hc.2.2.2⟩
          show writeFieldChars f ++ ['\n'] = _
          rw [hw, hd]
          rfl
        | cons f' fs' =>
          refine ⟨c, cs ++ ',' :: writeRecordChars (f' :: fs'), ?_, hc.2.2.2⟩
          show writeFieldChars f ++ ',' :: writeRecordChars (f' :: fs') = _
          rw [hw, hd]
          rfl
      | nil =>
        have hf : f = "" := by rw [← string_mk_data f, hd]
        cases fs with
        | nil => exact absurd (by rw [hf]) h1
        | cons f' fs' =>
          refine ⟨',', writeRecordChars (f' :: fs'), ?_, by decide⟩
          show writeFieldChars f ++ ',' :: writeRecordChars (f' :: fs') = _
          rw [hw, hd]
          rfl

/-- Scanning a whole written table appends all its records. -/
theorem csvScan_table (t : List (List String)) :
    ∀ recs : List (List String), (∀ r ∈ t, r ≠ [] ∧ r ≠ [""]) →
      csvScan recs [] [] .recordStart (csvWriteChars t) = some (recs ++ t) := by
  induction t with
  | nil =>
    intro recs _
    simp [csvWriteChars, csvScan]
  | cons r t ih =>
    intro recs hgood
    have hr := hgood r (by simp)
    obtain ⟨c, cs, hw, hc⟩ := writeRecordChars_head_ne_newline r hr.1 hr.2
    show csvScan recs [] [] .recordStart
      (writeRecordChars r ++ csvWriteChars t) = _
    rw [hw, List.cons_append, csvScan_recordStart_eq_fieldStart recs c _ hc,
      ← List.cons_append, ← hw, csvScan_record r recs [] _ hr.1,
      ih (recs ++ [[] ++ r]) (fun x hx => hgood x (by simp [hx]))]
    simp

/-- Re-parsing the written form of a table whose records are non-empty and
not the single empty field recovers the table exactly. -/
theorem csvParse_csvWrite (t : List (List String))
    (h : ∀ r ∈ t, r ≠ [] ∧ r ≠ [""]) : csvParse (csvWrite t) = some t := by
  show csvScan [] [] [] .recordStart (csvWrite t).data = some t
  rw [show (csvWrite t).data = csvWriteChars t from rfl, csvScan_table t [] h]
  rfl

/-- Every record of a table accepted by `checkFile` is non-empty (the header
starts with its empty cell and every data record has the header's positive
cell count). -/
theorem rows_ne_nil_of_checkFile (t : List (List String))
    (h : checkFile t = true) : ∀ r ∈ t, r ≠ [] := by
  rw [checkFile_eq_true_iff] at h
  obtain ⟨hrest, rest, heq, _, hlen, _⟩ := h
  subst heq
  intro r hr
  rcases List.mem_cons.mp hr with h | h
  · rw [h]
    simp
  · have hl := hlen r h
    intro hnil
    rw [hnil] at hl
    simp at hl

/-- C9 (amended): for a table the Validator accepts, none of whose records is
the single empty field (which the CSV writer renders as a blank line that the
reader skips) and whose cells contain no carriage return (which the Go reader
would normalize inside quoted fields), writing the table with
`writeCSVtoFile` and validating the written output yields the same pass
verdict as validating the table itself. -/
theorem checkFile_csv_roundtrip_amended (t : List (List String))
    (hacc : checkFile t = true)
    (hone : ∀ r ∈ t, r ≠ [""])
    (_hcr : ∀ r ∈ t, ∀ f ∈ r, '\r' ∉ f.data) :
    checkFileOnText (csvWrite t) = checkFile t := by
  have hgood : ∀ r ∈ t, r ≠ [] ∧ r ≠ [""] := fun r hr =>
    ⟨rows_ne_nil_of_checkFile t hacc r hr, hone r hr⟩
  unfold checkFileOnText
  rw [csvParse_csvWrite t hgood]

/-- Witness for C9's amended theorem at a concrete accepted table. -/
theorem checkFile_csv_roundtrip_amended_witness :
    (checkFile [["", "2023-01"], ["alice", "12"], ["bob-2", "7"]] = true ∧
      (∀ r ∈ ([["", "2023-01"], ["alice", "12"], ["bob-2", "7"]] :
        List (List String)), r ≠ [""]) ∧
      (∀ r ∈ ([["", "2023-01"], ["alice", "12"], ["bob-2", "7"]] :
        List (List String)), ∀ f ∈ r, '\r' ∉ f.data)) ∧
    checkFileOnText (csvWrite [["", "2023-01"], ["alice", "12"],
      ["bob-2", "7"]]) =
      checkFile [["", "2023-01"], ["alice", "12"], ["bob-2", "7"]] := by
  refine ⟨⟨by decide, by decide, by decide⟩, ?_⟩
  exact checkFile_csv_roundtrip_amended
    [["", "2023-01"], ["alice", "12"], ["bob-2", "7"]]
    (by decide) (by decide) (by decide)
